import Mathlib

/-!
# Verification of the clinic-management auth core

Shallow embedding of the authentication / tenant-invitation flow of the
`hello-world` clinic-management backend (`backend/src/auth/auth.service.ts`,
`backend/src/users/users.service.ts`, `backend/src/config/configuration.ts`
and the DTO validators), together with proofs settling the frozen claims.

Modelling conventions:
- Timestamps are naturals counting milliseconds (JS `Date.getTime()`).
- The Prisma store is a record of three lists (clinics, users, invitations);
  `findUnique` on a uniquely-constrained column is `List.find?`.
- `bcrypt.hash` is modelled as an injective constructor `bcryptHash` producing
  a value of a dedicated type `BHash` (so a plaintext `String` can never sit
  in a `passwordHash` field); `bcrypt.compare` checks against that value.
- `jwtService.sign` is modelled as a constructor pairing the payload with the
  signing secret.
- Each `await`ed Prisma *write* can fail (connection loss etc.); a Boolean
  flag per write says whether that write commits.  The code wraps no writes
  in `prisma.$transaction`, so a failing later write keeps earlier writes:
  the model reproduces exactly the sequence of writes the code issues.
- `crypto.randomBytes(48)` is modelled by passing the produced byte list as
  an explicit argument; `Buffer.toString('base64url')` is implemented below.
-/

namespace ClinicAuth

/-- Roles of `common/enums/user-role.enum.ts`, as enumerated by the Phase-1
design document's `Role` enum (OWNER, ADMIN, DENTIST, HYGIENIST, ASSISTANT,
RECEPTIONIST, ACCOUNTANT). -/
inductive UserRole
  | OWNER
  | ADMIN
  | DENTIST
  | HYGIENIST
  | ASSISTANT
  | RECEPTIONIST
  | ACCOUNTANT
deriving DecidableEq, Repr

/-- A bcrypt digest: `bcrypt.hash(pw, cost)`.  A dedicated type, so that a
stored `passwordHash` can never be the plaintext string itself. -/
structure BHash where
  pw : String
  cost : Nat
deriving DecidableEq, Repr

/-- Model of `bcrypt.hash(pw, cost)` (salted one-way hash, modelled injectively). -/
def bcryptHash (pw : String) (cost : Nat) : BHash := ⟨pw, cost⟩

/-- Model of `bcrypt.compare(pw, hash)`: does the digest verify against `pw`? -/
def bcryptCompare (pw : String) (h : BHash) : Bool := pw == h.pw

/-- A `Clinic` row (the fields auth touches). -/
structure Clinic where
  id : String
  name : String
deriving DecidableEq, Repr

/-- A `User` row. -/
structure User where
  id : String
  clinicId : String
  email : String
  passwordHash : BHash
  fullName : String
  role : UserRole
  isActive : Bool
  invitedAt : Option Nat
  invitationId : Option String
  createdAt : Nat
  updatedAt : Nat
deriving DecidableEq, Repr

/-- A `StaffInvitation` row. -/
structure StaffInvitation where
  id : String
  clinicId : String
  email : String
  role : UserRole
  token : String
  expiresAt : Nat
  acceptedAt : Option Nat
  createdById : String
  createdAt : Nat
deriving DecidableEq, Repr

/-- The relational store accessed through `PrismaService`. -/
structure Store where
  clinics : List Clinic
  users : List User
  invitations : List StaffInvitation
deriving DecidableEq, Repr

/-- Model of `prisma.user.findUnique({ where: { email } })` — the unique constraint on
`User.email` is global (not clinic-scoped). -/
def findUserByEmail (s : Store) (email : String) : Option User :=
  s.users.find? (fun u => u.email == email)

/-- Model of `prisma.user.findUnique({ where: { id } })`. -/
def findUserById (s : Store) (id : String) : Option User :=
  s.users.find? (fun u => u.id == id)

/-- Model of `prisma.staffInvitation.findUnique({ where: { token } })`. -/
def findInvitationByToken (s : Store) (token : String) : Option StaffInvitation :=
  s.invitations.find? (fun i => i.token == token)

/-- The Nest `HttpException`s thrown by `AuthService`, plus the unclassified
internal error a failed store write propagates as. -/
inductive AuthError
  | badRequest (msg : String)
  | unauthorized (msg : String)
  | forbidden (msg : String)
  | storeFailure
deriving DecidableEq, Repr

/-- The HTTP status class an `AuthError` maps to. -/
inductive ErrClass
  | badRequestClass
  | unauthorizedClass
  | forbiddenClass
  | internalClass
deriving DecidableEq, Repr

/-- Status class of each error. -/
def AuthError.toClass : AuthError → ErrClass
  | .badRequest _ => .badRequestClass
  | .unauthorized _ => .unauthorizedClass
  | .forbidden _ => .forbiddenClass
  | .storeFailure => .internalClass

/-- The JWT claim set built by `generateToken`:
`{ sub, clinicId, role, email, fullName }`. -/
structure JwtPayload where
  sub : String
  clinicId : String
  role : UserRole
  email : String
  fullName : String
deriving DecidableEq, Repr

/-- Model of `jwtService.sign(payload)` with the configured process-wide secret. -/
structure SignedToken where
  payload : JwtPayload
  secret : String
deriving DecidableEq, Repr

/-- Model of `jwtService.sign`. -/
def jwtSign (secret : String) (p : JwtPayload) : SignedToken := ⟨p, secret⟩

/-- The `{ accessToken, user }` value the auth operations return. -/
structure AuthResult where
  accessToken : SignedToken
  user : JwtPayload
deriving DecidableEq, Repr

/-- Model of `AuthService.generateToken`. -/
def generateToken (secret : String) (u : User) : AuthResult :=
  let payload : JwtPayload :=
    { sub := u.id, clinicId := u.clinicId, role := u.role
      email := u.email, fullName := u.fullName }
  { accessToken := jwtSign secret payload, user := payload }

/-- Model of `config/configuration.ts`, `invites.expiryHours`:
`parseInt(process.env.INVITE_EXPIRY_HOURS || '72', 10)` — the environment
value when set, 72 when unconfigured. -/
def configurationInviteExpiryHours (env : Option Nat) : Nat := env.getD 72

/-- Model of `this.config.get<number>('invites.expiryHours', 72)`: the configured
value, defaulting to 72 when the configuration key is absent. -/
def configGetInviteExpiryHours (configured : Option Nat) : Nat :=
  configured.getD 72

/-- Milliseconds per hour. -/
def hourMs : Nat := 3600000

/-- Model of `date-fns` `addHours(t, h)` on millisecond timestamps. -/
def addHoursMs (t h : Nat) : Nat := t + h * hourMs

/-- Process-wide configuration consumed by the auth core: the JWT signing
secret and the `invites.expiryHours` key (absent when unconfigured). -/
structure AuthConfig where
  jwtSecret : String
  inviteExpiryHours : Option Nat
deriving DecidableEq, Repr

/-- Model of `SignupDto` (clinicName nonempty, ownerEmail an email, ownerName
nonempty, password ≥ 8 — validated upstream by `class-validator`). -/
structure SignupDto where
  clinicName : String
  ownerEmail : String
  ownerName : String
  password : String
deriving DecidableEq, Repr

/-- Model of `LoginDto`. -/
structure LoginDto where
  email : String
  password : String
deriving DecidableEq, Repr

/-- Model of `InviteStaffDto` (`email` validated by `@IsEmail`, `role` by
`@IsEnum(UserRole)`). -/
structure InviteStaffDto where
  email : String
  role : UserRole
deriving DecidableEq, Repr

/-- Model of `AcceptInviteDto` (token and fullName nonempty, password ≥ 8). -/
structure AcceptInviteDto where
  token : String
  fullName : String
  password : String
deriving DecidableEq, Repr

/-- The `{ invitationId, token, expiresAt }` value `inviteStaff` returns. -/
structure InviteResult where
  invitationId : String
  token : String
  expiresAt : Nat
deriving DecidableEq, Repr

/-- Model of `AuthService.signup`.  `now` is the clock, `clinicId`/`userId` are the
cuids Prisma generates, `createOk` says whether the single store write (the
nested `clinic.create` with its `users.create`, one atomic Prisma nested
write) commits.  Returns the store after the call and the outcome. -/
def signup (cfg : AuthConfig) (s : Store) (dto : SignupDto) (now : Nat)
    (clinicId userId : String) (createOk : Bool) :
    Store × Except AuthError AuthResult :=
  match findUserByEmail s dto.ownerEmail with
  | some _ => (s, .error (.badRequest "Email already registered"))
  | none =>
    if createOk then
      let owner : User :=
        { id := userId, clinicId := clinicId, email := dto.ownerEmail
          passwordHash := bcryptHash dto.password 10
          fullName := dto.ownerName, role := .OWNER, isActive := true
          invitedAt := none, invitationId := none
          createdAt := now, updatedAt := now }
      let clinic : Clinic := { id := clinicId, name := dto.clinicName }
      ({ s with clinics := clinic :: s.clinics, users := owner :: s.users },
        .ok (generateToken cfg.jwtSecret owner))
    else (s, .error .storeFailure)

/-- Model of `AuthService.login`: one read, no writes.  The code throws the same
`UnauthorizedException('Invalid credentials')` whether the email is unknown
or the hash does not verify (`if (!user || !(await bcrypt.compare(...)))`). -/
def login (cfg : AuthConfig) (s : Store) (dto : LoginDto) :
    Store × Except AuthError AuthResult :=
  match findUserByEmail s dto.email with
  | none => (s, .error (.unauthorized "Invalid credentials"))
  | some user =>
    if bcryptCompare dto.password user.passwordHash then
      (s, .ok (generateToken cfg.jwtSecret user))
    else (s, .error (.unauthorized "Invalid credentials"))

/-- The URL-safe base64 alphabet (RFC 4648 §5), in index order. -/
def base64urlAlphabet : List Char :=
  "ABCDEFGHIJKLMNOPQRSTUVWXYZabcdefghijklmnopqrstuvwxyz0123456789-_".toList

/-- Character for a 6-bit group. -/
def b64Char (i : Nat) : Char := base64urlAlphabet.getD i 'A'

/-- Model of `Buffer.toString('base64url')`: unpadded URL-safe base64 of a byte list.
Each 3-byte group yields 4 characters; a 2-byte tail yields 3, a 1-byte tail
yields 2 (Node emits no `=` padding for base64url). -/
def base64urlEncode : List Nat → List Char
  | a :: b :: c :: rest =>
      b64Char (a / 4) :: b64Char (a % 4 * 16 + b / 16) ::
      b64Char (b % 16 * 4 + c / 64) :: b64Char (c % 64) ::
      base64urlEncode rest
  | [a, b] =>
      [b64Char (a / 4), b64Char (a % 4 * 16 + b / 16), b64Char (b % 16 * 4)]
  | [a] => [b64Char (a / 4), b64Char (a % 4 * 16)]
  | [] => []

/-- Model of `AuthService.generateInviteToken`:
`randomBytes(48).toString('base64url')`.  The 48 bytes drawn from the
cryptographically secure source are the argument. -/
def generateInviteToken (randomBytes48 : List Nat) : String :=
  String.mk (base64urlEncode randomBytes48)

/-- Model of `AuthService.inviteStaff`.  `invId` is the cuid Prisma generates for the
invitation, `randomBytes48` the output of `crypto.randomBytes(48)`,
`createOk` whether the single `staffInvitation.create` write commits. -/
def inviteStaff (cfg : AuthConfig) (s : Store) (clinicId creatorId : String)
    (dto : InviteStaffDto) (now : Nat) (invId : String)
    (randomBytes48 : List Nat) (createOk : Bool) :
    Store × Except AuthError InviteResult :=
  match findUserByEmail s dto.email with
  | some _ => (s, .error (.badRequest "User already exists"))
  | none =>
    let token := generateInviteToken randomBytes48
    let expiryHours := configGetInviteExpiryHours cfg.inviteExpiryHours
    let expiresAt := addHoursMs now expiryHours
    if createOk then
      let invitation : StaffInvitation :=
        { id := invId, clinicId := clinicId, email := dto.email
          role := dto.role, token := token, expiresAt := expiresAt
          acceptedAt := none, createdById := creatorId, createdAt := now }
      ({ s with invitations := invitation :: s.invitations },
        .ok { invitationId := invitation.id, token := invitation.token
              expiresAt := invitation.expiresAt })
    else (s, .error .storeFailure)

/-- Model of `AuthService.acceptInvitation`.  After the three checks the code issues
TWO separate store writes with no surrounding transaction: first
`prisma.user.create` (linking the user to the invitation via
`invitation: { connect: ... }`), then `prisma.staffInvitation.update`
setting `acceptedAt`.  `createOk` / `updateOk` say whether each write
commits; a write that fails throws, keeping every earlier committed write.
The expiry check is `isBefore(invitation.expiresAt, new Date())`, i.e. it
rejects strictly-past expiries only. -/
def acceptInvitation (cfg : AuthConfig) (s : Store) (dto : AcceptInviteDto)
    (now : Nat) (userId : String) (createOk updateOk : Bool) :
    Store × Except AuthError AuthResult :=
  match findInvitationByToken s dto.token with
  | none => (s, .error (.badRequest "Invalid invitation token"))
  | some invitation =>
    if invitation.acceptedAt.isSome then
      (s, .error (.badRequest "Invitation already used"))
    else if invitation.expiresAt < now then
      (s, .error (.forbidden "Invitation expired"))
    else
      let passwordHash := bcryptHash dto.password 10
      if createOk then
        let user : User :=
          { id := userId, clinicId := invitation.clinicId
            email := invitation.email, passwordHash := passwordHash
            fullName := dto.fullName, role := invitation.role
            isActive := true, invitedAt := some now
            invitationId := some invitation.id
            createdAt := now, updatedAt := now }
        let s1 := { s with users := user :: s.users }
        if updateOk then
          let setAccepted := fun (i : StaffInvitation) =>
            if i.id == invitation.id then { i with acceptedAt := some now } else i
          let s2 := { s1 with invitations := s1.invitations.map setAccepted }
          (s2, .ok (generateToken cfg.jwtSecret user))
        else (s1, .error .storeFailure)
      else (s, .error .storeFailure)

/-! ## `users/users.service.ts` -/

/-- The `SafeUser` shape selected by `userSafeSelect`: exactly the fields
`{ id, email, fullName, role, clinicId, isActive, invitedAt, invitationId,
createdAt, updatedAt }` — no `passwordHash`. -/
structure SafeUser where
  id : String
  email : String
  fullName : String
  role : UserRole
  clinicId : String
  isActive : Bool
  invitedAt : Option Nat
  invitationId : Option String
  createdAt : Nat
  updatedAt : Nat
deriving DecidableEq, Repr

/-- The projection `userSafeSelect` applies to a `User` row. -/
def toSafeUser (u : User) : SafeUser :=
  { id := u.id, email := u.email, fullName := u.fullName, role := u.role
    clinicId := u.clinicId, isActive := u.isActive, invitedAt := u.invitedAt
    invitationId := u.invitationId, createdAt := u.createdAt
    updatedAt := u.updatedAt }

/-- Model of `UsersService.getUserById`: `findUnique({ where: { id }, select:
userSafeSelect })`. -/
def usersGetUserById (s : Store) (id : String) : Option SafeUser :=
  (s.users.find? (fun u => u.id == id)).map toSafeUser

/-- Model of `UsersService.listClinicUsers`: `findMany({ where: { clinicId }, select:
userSafeSelect })`. -/
def usersListClinicUsers (s : Store) (clinicId : String) : List SafeUser :=
  (s.users.filter (fun u => u.clinicId == clinicId)).map toSafeUser

/-! ## `InviteStaffDto` role validation (`@IsEnum(UserRole)`) -/

/-- The string value of each `UserRole` enum member. -/
def UserRole.toName : UserRole → String
  | .OWNER => "OWNER"
  | .ADMIN => "ADMIN"
  | .DENTIST => "DENTIST"
  | .HYGIENIST => "HYGIENIST"
  | .ASSISTANT => "ASSISTANT"
  | .RECEPTIONIST => "RECEPTIONIST"
  | .ACCOUNTANT => "ACCOUNTANT"

/-- Every member of the `UserRole` enum. -/
def userRoleMembers : List UserRole :=
  [.OWNER, .ADMIN, .DENTIST, .HYGIENIST, .ASSISTANT, .RECEPTIONIST, .ACCOUNTANT]

/-- Model of `class-validator`'s `@IsEnum(UserRole)` on a raw string value: accepts
exactly the enum's values — this is the ONLY restriction `InviteStaffDto`
places on `role`. -/
def isEnumUserRole (raw : String) : Bool :=
  (userRoleMembers.map UserRole.toName).contains raw

/-- Decoding a raw role string into the enum. -/
def parseUserRole (raw : String) : Option UserRole :=
  userRoleMembers.find? (fun r => r.toName == raw)

/-- Is a character in the URL-safe base64 alphabet? -/
def isUrlSafeChar (c : Char) : Bool :=
  ('A' ≤ c && c ≤ 'Z') || ('a' ≤ c && c ≤ 'z') ||
    ('0' ≤ c && c ≤ '9') || c == '-' || c == '_'

/-- Equality of `Except` outcomes is decidable (used to evaluate the model
at concrete inputs). -/
instance {ε α : Type} [DecidableEq ε] [DecidableEq α] :
    DecidableEq (Except ε α) := fun x y =>
  match x, y with
  | .error a, .error b => decidable_of_iff (a = b) (by simp)
  | .error _, .ok _ => isFalse (by simp)
  | .ok _, .error _ => isFalse (by simp)
  | .ok a, .ok b => decidable_of_iff (a = b) (by simp)

/-! ## Concrete fixtures (used by witnesses and counterexamples) -/

/-- The default configuration: `dev-secret`, no `INVITE_EXPIRY_HOURS`. -/
def cfgD : AuthConfig := { jwtSecret := "dev-secret", inviteExpiryHours := none }

/-- A clinic owner on record. -/
def demoOwner : User :=
  { id := "u1", clinicId := "c1", email := "owner@x.com"
    passwordHash := bcryptHash "password1" 10, fullName := "Owner"
    role := .OWNER, isActive := true, invitedAt := none, invitationId := none
    createdAt := 0, updatedAt := 0 }

/-- The owner's clinic. -/
def demoClinic : Clinic := { id := "c1", name := "Demo Clinic" }

/-- A store holding one clinic and its owner. -/
def demoStore : Store :=
  { clinics := [demoClinic], users := [demoOwner], invitations := [] }

/-- A pending staff invitation expiring at t = 1000. -/
def demoInvitation : StaffInvitation :=
  { id := "i1", clinicId := "c1", email := "staff@x.com", role := .ADMIN
    token := "tok1", expiresAt := 1000, acceptedAt := none
    createdById := "u1", createdAt := 0 }

/-- Fixture: `demoStore` with the pending invitation on record. -/
def invStore : Store := { demoStore with invitations := [demoInvitation] }

/-! ## Helper lemmas -/

/-- Helper: `findUserByEmail` hits iff some user (in any clinic) holds the email. -/
lemma findUserByEmail_isSome_iff (s : Store) (email : String) :
    (findUserByEmail s email).isSome ↔ ∃ u ∈ s.users, u.email = email := by
  simp [findUserByEmail, List.find?_isSome]

/-- Claim C3: for every stored user set and every (email, password) input,
login fails with InvalidCredentials iff no user has the email or the stored
hash does not verify; both failure causes produce the very same error value
(type `unauthorized`, message "Invalid credentials"); otherwise login returns
a fresh session credential for the matched user. -/
theorem login_contract (cfg : AuthConfig) (s : Store) (dto : LoginDto) :
    ((login cfg s dto).2 = .error (.unauthorized "Invalid credentials") ↔
      findUserByEmail s dto.email = none ∨
        ∃ u, findUserByEmail s dto.email = some u ∧
          bcryptCompare dto.password u.passwordHash = false) ∧
    (∀ u, findUserByEmail s dto.email = some u →
      bcryptCompare dto.password u.passwordHash = true →
      (login cfg s dto).2 = .ok (generateToken cfg.jwtSecret u)) ∧
    (login cfg s dto).1 = s := by
  refine ⟨?_, ?_, ?_⟩
  · cases h : findUserByEmail s dto.email with
    | none => simp [login, h]
    | some u =>
      cases hc : bcryptCompare dto.password u.passwordHash <;>
        simp [login, h, hc]
  · intro u hu hc
    simp [login, hu, hc]
  · cases h : findUserByEmail s dto.email with
    | none => simp [login, h]
    | some u =>
      cases hc : bcryptCompare dto.password u.passwordHash <;>
        simp [login, h, hc]

/-- Witness for `login_contract`: on `demoStore`, a wrong password and an
unknown email both yield exactly InvalidCredentials, and the correct
password logs the owner in. -/
theorem login_contract_witness :
    (login cfgD demoStore { email := "owner@x.com", password := "wrong" }).2
        = .error (.unauthorized "Invalid credentials") ∧
    (login cfgD demoStore { email := "ghost@x.com", password := "password1" }).2
        = .error (.unauthorized "Invalid credentials") ∧
    (login cfgD demoStore { email := "owner@x.com", password := "password1" }).2
        = .ok (generateToken "dev-secret" demoOwner) := by
  refine ⟨?_, ?_, ?_⟩
  · exact (login_contract cfgD demoStore _).1.mpr
      (Or.inr ⟨demoOwner, by decide, by decide⟩)
  · exact (login_contract cfgD demoStore _).1.mpr (Or.inl (by decide))
  · exact (login_contract cfgD demoStore _).2.1 demoOwner (by decide) (by decide)

/-- Claim C2 counterexample: with the pending invitation expiring at
t = 1000 and the clock exactly at t = 1000 (current time AT the expiry),
the claim demands failure with Expired, but `acceptInvitation` succeeds:
the code's `isBefore(invitation.expiresAt, new Date())` check is strict. -/
theorem acceptInvitation_at_expiry_counterexample :
    findInvitationByToken invStore "tok1" = some demoInvitation ∧
    demoInvitation.acceptedAt = none ∧
    demoInvitation.expiresAt ≤ 1000 ∧
    (acceptInvitation cfgD invStore
        { token := "tok1", fullName := "Staff Name", password := "password1" }
        1000 "u2" true true).2
      ≠ .error (.forbidden "Invitation expired") ∧
    (acceptInvitation cfgD invStore
        { token := "tok1", fullName := "Staff Name", password := "password1" }
        1000 "u2" true true).2.isOk = true := by
  refine ⟨by decide, by decide, by decide, by decide, by decide⟩

/-- Claim C2 as amended: for every token, `acceptInvitation` (with both
store writes committing) fails with InvalidToken iff no invitation matches
the token; with AlreadyUsed iff a matching invitation has `acceptedAt`
set; with Expired iff a matching, unused invitation exists and the current
time is STRICTLY AFTER its expiry; and the three errors are pairwise
distinct, Expired being in the forbidden class while the other two are
bad-request. -/
theorem acceptInvitation_error_contract (cfg : AuthConfig) (s : Store)
    (dto : AcceptInviteDto) (now : Nat) (userId : String) :
    ((acceptInvitation cfg s dto now userId true true).2
        = .error (.badRequest "Invalid invitation token") ↔
      findInvitationByToken s dto.token = none) ∧
    ((acceptInvitation cfg s dto now userId true true).2
        = .error (.badRequest "Invitation already used") ↔
      ∃ inv, findInvitationByToken s dto.token = some inv ∧
        inv.acceptedAt.isSome) ∧
    ((acceptInvitation cfg s dto now userId true true).2
        = .error (.forbidden "Invitation expired") ↔
      ∃ inv, findInvitationByToken s dto.token = some inv ∧
        inv.acceptedAt = none ∧ inv.expiresAt < now) ∧
    (AuthError.badRequest "Invalid invitation token"
        ≠ .badRequest "Invitation already used") ∧
    (AuthError.badRequest "Invalid invitation token"
        ≠ .forbidden "Invitation expired") ∧
    (AuthError.badRequest "Invitation already used"
        ≠ .forbidden "Invitation expired") ∧
    (AuthError.forbidden "Invitation expired").toClass = .forbiddenClass ∧
    (AuthError.badRequest "Invalid invitation token").toClass
        = .badRequestClass ∧
    (AuthError.badRequest "Invitation already used").toClass
        = .badRequestClass := by
  refine ⟨?_, ?_, ?_, by decide, by decide, by decide, rfl, rfl, rfl⟩
  · cases h : findInvitationByToken s dto.token with
    | none => simp [acceptInvitation, h]
    | some inv =>
      cases ha : inv.acceptedAt with
      | some t => simp [acceptInvitation, h, ha]
      | none =>
        rcases Nat.lt_or_ge inv.expiresAt now with he | he
        · simp [acceptInvitation, h, ha, he]
        · simp [acceptInvitation, h, ha, Nat.not_lt.mpr he]
  · cases h : findInvitationByToken s dto.token with
    | none => simp [acceptInvitation, h]
    | some inv =>
      cases ha : inv.acceptedAt with
      | some t => simp [acceptInvitation, h, ha]
      | none =>
        rcases Nat.lt_or_ge inv.expiresAt now with he | he
        · simp [acceptInvitation, h, ha, he]
        · simp [acceptInvitation, h, ha, Nat.not_lt.mpr he]
  · cases h : findInvitationByToken s dto.token with
    | none => simp [acceptInvitation, h]
    | some inv =>
      cases ha : inv.acceptedAt with
      | some t => simp [acceptInvitation, h, ha]
      | none =>
        rcases Nat.lt_or_ge inv.expiresAt now with he | he
        · simp [acceptInvitation, h, ha, he]
        · simp [acceptInvitation, h, ha, Nat.not_lt.mpr he]

/-- Witness for `acceptInvitation_error_contract`: an unrecognized token on
the demo store yields exactly the InvalidToken bad-request error. -/
theorem acceptInvitation_error_contract_witness :
    (acceptInvitation cfgD demoStore
        { token := "ghost", fullName := "S", password := "password1" }
        0 "u2" true true).2
      = .error (.badRequest "Invalid invitation token") :=
  (acceptInvitation_error_contract cfgD demoStore
    { token := "ghost", fullName := "S", password := "password1" }
    0 "u2").1.mpr (by decide)

/-- The user row `acceptInvitation` creates for invitation `inv`. -/
def invitedUser (inv : StaffInvitation) (dto : AcceptInviteDto)
    (now : Nat) (userId : String) : User :=
  { id := userId, clinicId := inv.clinicId, email := inv.email
    passwordHash := bcryptHash dto.password 10, fullName := dto.fullName
    role := inv.role, isActive := true, invitedAt := some now
    invitationId := some inv.id, createdAt := now, updatedAt := now }

/-- Claim C6: for every matched, unused, unexpired invitation, a successful
`acceptInvitation` creates exactly one new User carrying the invitation's
email, role and clinic, with the password stored hashed and the user linked
back to the invitation; it sets that invitation's `acceptedAt` to the
current time and returns a fresh session credential for the new user. -/
theorem acceptInvitation_success (cfg : AuthConfig) (s : Store)
    (dto : AcceptInviteDto) (now : Nat) (userId : String)
    (inv : StaffInvitation)
    (hfind : findInvitationByToken s dto.token = some inv)
    (hunused : inv.acceptedAt = none)
    (hunexpired : ¬ inv.expiresAt < now) :
    (acceptInvitation cfg s dto now userId true true).2
        = .ok (generateToken cfg.jwtSecret (invitedUser inv dto now userId)) ∧
    (acceptInvitation cfg s dto now userId true true).1.users
        = invitedUser inv dto now userId :: s.users ∧
    { inv with acceptedAt := some now }
        ∈ (acceptInvitation cfg s dto now userId true true).1.invitations ∧
    (acceptInvitation cfg s dto now userId true true).1.clinics = s.clinics ∧
    (invitedUser inv dto now userId).email = inv.email ∧
    (invitedUser inv dto now userId).role = inv.role ∧
    (invitedUser inv dto now userId).clinicId = inv.clinicId ∧
    (invitedUser inv dto now userId).passwordHash = bcryptHash dto.password 10 ∧
    (invitedUser inv dto now userId).invitationId = some inv.id := by
  have hmem : inv ∈ s.invitations := by
    have := List.mem_of_find?_eq_some hfind
    exact this
  refine ⟨?_, ?_, ?_, ?_, rfl, rfl, rfl, rfl, rfl⟩
  · simp [acceptInvitation, hfind, hunused, hunexpired, invitedUser]
  · simp [acceptInvitation, hfind, hunused, hunexpired, invitedUser]
  · simp only [acceptInvitation, hfind, hunused, Option.isSome_none,
      Bool.false_eq_true, if_false, if_neg hunexpired]
    simp only [if_true]
    refine List.mem_map.mpr ⟨inv, hmem, ?_⟩
    simp
  · simp [acceptInvitation, hfind, hunused, hunexpired]

/-- Witness for `acceptInvitation_success`: accepting the pending demo
invitation at t = 500 creates the ADMIN user in clinic c1 and marks the
invitation accepted. -/
theorem acceptInvitation_success_witness :
    (acceptInvitation cfgD invStore
        { token := "tok1", fullName := "Staff Name", password := "password1" }
        500 "u2" true true).2
      = .ok (generateToken "dev-secret"
          (invitedUser demoInvitation
            { token := "tok1", fullName := "Staff Name", password := "password1" }
            500 "u2")) ∧
    { demoInvitation with acceptedAt := some 500 }
        ∈ (acceptInvitation cfgD invStore
            { token := "tok1", fullName := "Staff Name", password := "password1" }
            500 "u2" true true).1.invitations := by
  have h := acceptInvitation_success cfgD invStore
    { token := "tok1", fullName := "Staff Name", password := "password1" }
    500 "u2" demoInvitation (by decide) (by decide) (by decide)
  exact ⟨h.1, h.2.2.1⟩

/-- Claim C1 is violated by the code: `acceptInvitation` issues
`prisma.user.create` and then `prisma.staffInvitation.update` as two
separate writes with no `$transaction`.  If the second write fails after
the first committed, the call fails yet the store now holds a user linked
to invitation i1 while i1's `acceptedAt` is still null — a state both the
spec and the claim rule out. -/
theorem acceptInvitation_not_atomic :
    (acceptInvitation cfgD invStore
        { token := "tok1", fullName := "Staff Name", password := "password1" }
        500 "u2" true false).2 = .error .storeFailure ∧
    (∃ u ∈ (acceptInvitation cfgD invStore
        { token := "tok1", fullName := "Staff Name", password := "password1" }
        500 "u2" true false).1.users, u.invitationId = some "i1") ∧
    (∃ i ∈ (acceptInvitation cfgD invStore
        { token := "tok1", fullName := "Staff Name", password := "password1" }
        500 "u2" true false).1.invitations,
      i.id = "i1" ∧ i.acceptedAt = none) := by
  refine ⟨by decide, ?_, ?_⟩
  · exact ⟨invitedUser demoInvitation
      { token := "tok1", fullName := "Staff Name", password := "password1" }
      500 "u2", by decide, by decide⟩
  · exact ⟨demoInvitation, by decide, by decide, by decide⟩

/-- The owner row `signup`'s nested create produces. -/
def signupOwner (dto : SignupDto) (now : Nat) (clinicId userId : String) : User :=
  { id := userId, clinicId := clinicId, email := dto.ownerEmail
    passwordHash := bcryptHash dto.password 10
    fullName := dto.ownerName, role := .OWNER, isActive := true
    invitedAt := none, invitationId := none
    createdAt := now, updatedAt := now }

/-- Claim C4: `signup` fails with DuplicateEmail iff some user in ANY
clinic already has the owner email (the lookup is on the global email
unique key, not clinic-scoped); on that failure the store is untouched;
and a second signup with the same ownerEmail after a successful first one
always fails with DuplicateEmail, creating nothing. -/
theorem signup_duplicate_email_contract (cfg : AuthConfig) (s : Store)
    (dto : SignupDto) (now : Nat) (cid uid : String) (createOk : Bool) :
    ((signup cfg s dto now cid uid createOk).2
        = .error (.badRequest "Email already registered") ↔
      ∃ u ∈ s.users, u.email = dto.ownerEmail) ∧
    ((∃ u ∈ s.users, u.email = dto.ownerEmail) →
      (signup cfg s dto now cid uid createOk).1 = s) ∧
    (∀ dto2 now2 cid2 uid2 ok2, dto2.ownerEmail = dto.ownerEmail →
      findUserByEmail s dto.ownerEmail = none →
      (signup cfg (signup cfg s dto now cid uid true).1
          dto2 now2 cid2 uid2 ok2).2
        = .error (.badRequest "Email already registered") ∧
      (signup cfg (signup cfg s dto now cid uid true).1
          dto2 now2 cid2 uid2 ok2).1
        = (signup cfg s dto now cid uid true).1) := by
  refine ⟨?_, ?_, ?_⟩
  · cases h : findUserByEmail s dto.ownerEmail with
    | none =>
      have hno : ¬ ∃ u ∈ s.users, u.email = dto.ownerEmail := by
        intro ⟨u, hu, he⟩
        have := List.find?_eq_none.mp h u hu
        simp [he] at this
      cases createOk <;> simp [signup, h, hno]
    | some u =>
      have hu : u ∈ s.users ∧ u.email = dto.ownerEmail := by
        constructor
        · exact List.mem_of_find?_eq_some h
        · have := List.find?_some h
          simpa using this
      simp [signup, h]
      exact ⟨u, hu.1, hu.2⟩
  · intro ⟨u, hu, he⟩
    have hsome : (findUserByEmail s dto.ownerEmail).isSome := by
      exact (findUserByEmail_isSome_iff s dto.ownerEmail).mpr ⟨u, hu, he⟩
    rcases Option.isSome_iff_exists.mp hsome with ⟨v, hv⟩
    simp [signup, hv]
  · intro dto2 now2 cid2 uid2 ok2 hsame hfresh
    have h1 : (signup cfg s dto now cid uid true).1
        = { s with clinics := { id := cid, name := dto.clinicName } :: s.clinics
                   users := signupOwner dto now cid uid :: s.users } := by
      simp [signup, hfresh, signupOwner]
    have h2 : findUserByEmail
        ({ s with clinics := { id := cid, name := dto.clinicName } :: s.clinics
                  users := signupOwner dto now cid uid :: s.users } : Store)
        dto2.ownerEmail = some (signupOwner dto now cid uid) := by
      simp [findUserByEmail, List.find?, hsame, signupOwner]
    rw [h1]
    constructor
    · simp [signup, h2]
    · simp [signup, h2]

/-- Witness for `signup_duplicate_email_contract`: signing up the demo
owner's email again fails without touching the store, and a fresh signup
followed by a repeat of the same email fails with DuplicateEmail. -/
theorem signup_duplicate_email_contract_witness :
    (signup cfgD demoStore
        { clinicName := "Other", ownerEmail := "owner@x.com"
          ownerName := "X", password := "password2" } 5 "c9" "u9" true).2
      = .error (.badRequest "Email already registered") ∧
    (signup cfgD
        (signup cfgD demoStore
          { clinicName := "Fresh", ownerEmail := "new@x.com"
            ownerName := "N", password := "password2" } 5 "c2" "u2" true).1
        { clinicName := "Again", ownerEmail := "new@x.com"
          ownerName := "M", password := "password3" } 6 "c3" "u3" true).2
      = .error (.badRequest "Email already registered") := by
  constructor
  · exact (signup_duplicate_email_contract cfgD demoStore _ 5 "c9" "u9" true).1.mpr
      ⟨demoOwner, by decide, by decide⟩
  · exact ((signup_duplicate_email_contract cfgD demoStore
      { clinicName := "Fresh", ownerEmail := "new@x.com"
        ownerName := "N", password := "password2" } 5 "c2" "u2" true).2.2
      { clinicName := "Again", ownerEmail := "new@x.com"
        ownerName := "M", password := "password3" } 6 "c3" "u3" true rfl
      (by decide)).1

/-- Claim C5: for a fresh ownerEmail, `signup` creates exactly one Clinic
and one User bound to it with role OWNER and the given email, in ONE atomic
nested-create write; only the bcrypt hash of the password is stored; the
returned session credential's principal has role OWNER and the new clinic
id; and any failing run leaves the store exactly as it was. -/
theorem signup_success (cfg : AuthConfig) (s : Store) (dto : SignupDto)
    (now : Nat) (cid uid : String)
    (hfresh : findUserByEmail s dto.ownerEmail = none) :
    (signup cfg s dto now cid uid true).2
        = .ok (generateToken cfg.jwtSecret (signupOwner dto now cid uid)) ∧
    (signup cfg s dto now cid uid true).1.clinics
        = { id := cid, name := dto.clinicName } :: s.clinics ∧
    (signup cfg s dto now cid uid true).1.users
        = signupOwner dto now cid uid :: s.users ∧
    (signup cfg s dto now cid uid true).1.invitations = s.invitations ∧
    (signupOwner dto now cid uid).role = .OWNER ∧
    (signupOwner dto now cid uid).email = dto.ownerEmail ∧
    (signupOwner dto now cid uid).clinicId = cid ∧
    (signupOwner dto now cid uid).passwordHash = bcryptHash dto.password 10 ∧
    (generateToken cfg.jwtSecret (signupOwner dto now cid uid)).user.role
        = .OWNER ∧
    (generateToken cfg.jwtSecret (signupOwner dto now cid uid)).user.clinicId
        = cid ∧
    (∀ ok, (signup cfg s dto now cid uid ok).2.isOk = false →
      (signup cfg s dto now cid uid ok).1 = s) := by
  refine ⟨?_, ?_, ?_, ?_, rfl, rfl, rfl, rfl, rfl, rfl, ?_⟩
  · simp [signup, hfresh, signupOwner]
  · simp [signup, hfresh]
  · simp [signup, hfresh, signupOwner]
  · simp [signup, hfresh]
  · intro ok hfail
    cases ok with
    | false => simp [signup, hfresh]
    | true => simp [signup, hfresh, Except.isOk, Except.toBool] at hfail

/-- Witness for `signup_success`: a fresh signup on the demo store. -/
theorem signup_success_witness :
    (signup cfgD demoStore
        { clinicName := "Second Clinic", ownerEmail := "new@x.com"
          ownerName := "Newbie", password := "password2" } 7 "c2" "u2" true).2
      = .ok (generateToken "dev-secret"
          (signupOwner
            { clinicName := "Second Clinic", ownerEmail := "new@x.com"
              ownerName := "Newbie", password := "password2" } 7 "c2" "u2")) := by
  exact (signup_success cfgD demoStore _ 7 "c2" "u2" (by decide)).1

/-- The invitation row `inviteStaff` persists. -/
def newInvitation (cfg : AuthConfig) (clinicId creatorId : String)
    (dto : InviteStaffDto) (now : Nat) (invId : String)
    (randomBytes48 : List Nat) : StaffInvitation :=
  { id := invId, clinicId := clinicId, email := dto.email, role := dto.role
    token := generateInviteToken randomBytes48
    expiresAt := addHoursMs now (configGetInviteExpiryHours cfg.inviteExpiryHours)
    acceptedAt := none, createdById := creatorId, createdAt := now }

/-- Claim C7: `inviteStaff` fails with DuplicateEmail iff a user with the
email exists in ANY clinic (the lookup is on the global email unique key);
otherwise it persists exactly one StaffInvitation with `acceptedAt` null,
expiry = now + configured window (72 hours when the key is unconfigured),
bound to the caller's clinic and creator, and returns exactly
`{invitationId, token, expiresAt}`. -/
theorem inviteStaff_contract (cfg : AuthConfig) (s : Store)
    (clinicId creatorId : String) (dto : InviteStaffDto) (now : Nat)
    (invId : String) (bytes : List Nat) :
    ((inviteStaff cfg s clinicId creatorId dto now invId bytes true).2
        = .error (.badRequest "User already exists") ↔
      ∃ u ∈ s.users, u.email = dto.email) ∧
    ((∃ u ∈ s.users, u.email = dto.email) →
      (inviteStaff cfg s clinicId creatorId dto now invId bytes true).1 = s) ∧
    (findUserByEmail s dto.email = none →
      (inviteStaff cfg s clinicId creatorId dto now invId bytes true).1.invitations
          = newInvitation cfg clinicId creatorId dto now invId bytes
              :: s.invitations ∧
      (inviteStaff cfg s clinicId creatorId dto now invId bytes true).1.users
          = s.users ∧
      (inviteStaff cfg s clinicId creatorId dto now invId bytes true).1.clinics
          = s.clinics ∧
      (inviteStaff cfg s clinicId creatorId dto now invId bytes true).2
          = .ok { invitationId := invId
                  token := generateInviteToken bytes
                  expiresAt := addHoursMs now
                    (configGetInviteExpiryHours cfg.inviteExpiryHours) } ∧
      (newInvitation cfg clinicId creatorId dto now invId bytes).acceptedAt
          = none ∧
      (newInvitation cfg clinicId creatorId dto now invId bytes).clinicId
          = clinicId ∧
      (newInvitation cfg clinicId creatorId dto now invId bytes).createdById
          = creatorId) ∧
    configGetInviteExpiryHours none = 72 := by
  refine ⟨?_, ?_, ?_, rfl⟩
  · cases h : findUserByEmail s dto.email with
    | none =>
      have hno : ¬ ∃ u ∈ s.users, u.email = dto.email := by
        intro ⟨u, hu, he⟩
        have := List.find?_eq_none.mp h u hu
        simp [he] at this
      simp [inviteStaff, h, hno]
    | some u =>
      have hu : u ∈ s.users ∧ u.email = dto.email := by
        refine ⟨List.mem_of_find?_eq_some h, ?_⟩
        have := List.find?_some h
        simpa using this
      simp [inviteStaff, h]
      exact ⟨u, hu.1, hu.2⟩
  · intro ⟨u, hu, he⟩
    have hsome : (findUserByEmail s dto.email).isSome :=
      (findUserByEmail_isSome_iff s dto.email).mpr ⟨u, hu, he⟩
    rcases Option.isSome_iff_exists.mp hsome with ⟨v, hv⟩
    simp [inviteStaff, hv]
  · intro hfresh
    refine ⟨?_, ?_, ?_, ?_, rfl, rfl, rfl⟩ <;>
      simp [inviteStaff, hfresh, newInvitation]

/-- Witness for `inviteStaff_contract`: inviting an existing email fails;
inviting a fresh email on the demo store persists the pending invitation
and returns the triple. -/
theorem inviteStaff_contract_witness :
    (inviteStaff cfgD demoStore "c1" "u1"
        { email := "owner@x.com", role := .ADMIN } 0 "i1"
        (List.replicate 48 0) true).2
      = .error (.badRequest "User already exists") ∧
    (inviteStaff cfgD demoStore "c1" "u1"
        { email := "staff@x.com", role := .ADMIN } 0 "i1"
        (List.replicate 48 0) true).2
      = .ok { invitationId := "i1"
              token := generateInviteToken (List.replicate 48 0)
              expiresAt := addHoursMs 0 72 } := by
  constructor
  · exact (inviteStaff_contract cfgD demoStore "c1" "u1"
      { email := "owner@x.com", role := .ADMIN } 0 "i1"
      (List.replicate 48 0)).1.mpr ⟨demoOwner, by decide, by decide⟩
  · exact ((inviteStaff_contract cfgD demoStore "c1" "u1"
      { email := "staff@x.com", role := .ADMIN } 0 "i1"
      (List.replicate 48 0)).2.2.1 (by decide)).2.2.2.1

/-- Every 6-bit index maps to a URL-safe character. -/
lemma b64Char_urlSafe : ∀ i, i < 64 → isUrlSafeChar (b64Char i) = true := by
  decide

/-- Each full 3-byte group contributes 4 output characters. -/
lemma base64urlEncode_length :
    ∀ (n : Nat) (bs : List Nat), bs.length = 3 * n →
      (base64urlEncode bs).length = 4 * n := by
  intro n
  induction n with
  | zero =>
    intro bs h
    have hz : bs = [] := List.length_eq_zero.mp (by omega)
    subst hz
    rfl
  | succ k ih =>
    intro bs h
    match bs with
    | [] => simp at h
    | [a] => simp at h; omega
    | [a, b] => simp at h; omega
    | a :: b :: c :: rest =>
      have hr : rest.length = 3 * k := by
        simp at h
        omega
      simp [base64urlEncode, ih rest hr]
      omega

/-- Every character the encoder emits is URL-safe, for byte inputs. -/
lemma base64urlEncode_urlSafe :
    ∀ (bs : List Nat), (∀ x ∈ bs, x < 256) →
      ∀ c ∈ base64urlEncode bs, isUrlSafeChar c = true := by
  intro bs
  induction bs using base64urlEncode.induct with
  | case1 a b c rest ih =>
    intro hlt ch hch
    have ha : a < 256 := hlt a (by simp)
    have hb : b < 256 := hlt b (by simp)
    have hc : c < 256 := hlt c (by simp)
    simp only [base64urlEncode, List.mem_cons] at hch
    rcases hch with h | h | h | h | h
    · exact h ▸ b64Char_urlSafe _ (by omega)
    · exact h ▸ b64Char_urlSafe _ (by omega)
    · exact h ▸ b64Char_urlSafe _ (by omega)
    · exact h ▸ b64Char_urlSafe _ (by omega)
    · exact ih (fun x hx => hlt x (by simp [hx])) ch h
  | case2 a b =>
    intro hlt ch hch
    have ha : a < 256 := hlt a (by simp)
    have hb : b < 256 := hlt b (by simp)
    simp only [base64urlEncode, List.mem_cons, List.not_mem_nil, or_false]
      at hch
    rcases hch with h | h | h <;> exact h ▸ b64Char_urlSafe _ (by omega)
  | case3 a =>
    intro hlt ch hch
    have ha : a < 256 := hlt a (by simp)
    simp only [base64urlEncode, List.mem_cons, List.not_mem_nil, or_false]
      at hch
    rcases hch with h | h <;> exact h ▸ b64Char_urlSafe _ (by omega)
  | case4 =>
    intro _ ch hch
    simp [base64urlEncode] at hch

/-- Claim C8: `generateInviteToken` turns the 48 bytes drawn from the
secure random source into an exactly 64-character token whose every
character lies in the URL-safe base64 alphabet. -/
theorem generateInviteToken_spec (bytes : List Nat)
    (hlen : bytes.length = 48) (hbytes : ∀ x ∈ bytes, x < 256) :
    (generateInviteToken bytes).length = 64 ∧
    ∀ c ∈ (generateInviteToken bytes).data, isUrlSafeChar c = true := by
  constructor
  · show (base64urlEncode bytes).length = 64
    have := base64urlEncode_length 16 bytes (by omega)
    omega
  · intro c hc
    exact base64urlEncode_urlSafe bytes hbytes c hc

/-- Witness for `generateInviteToken_spec`: 48 zero bytes. -/
theorem generateInviteToken_spec_witness :
    (generateInviteToken (List.replicate 48 0)).length = 64 ∧
    ∀ c ∈ (generateInviteToken (List.replicate 48 0)).data,
      isUrlSafeChar c = true :=
  generateInviteToken_spec (List.replicate 48 0) (by simp)
    (by intro x hx; simp [List.mem_replicate] at hx; omega)

/-- A store whose every stored digest has been rewritten arbitrarily. -/
def rehashAllUsers (rehash : User → BHash) (s : Store) : Store :=
  { s with users := s.users.map (fun u => { u with passwordHash := rehash u }) }

/-- Replacing every stored digest leaves the safe-select find unchanged. -/
lemma find?_safe_map_rehash (l : List User) (id : String)
    (rehash : User → BHash) :
    ((l.map (fun u => { u with passwordHash := rehash u })).find?
        (fun u => u.id == id)).map toSafeUser
      = (l.find? (fun u => u.id == id)).map toSafeUser := by
  induction l with
  | nil => rfl
  | cons u rest ih =>
    cases hb : (u.id == id) with
    | true => simp [List.find?, hb, toSafeUser]
    | false => simpa [List.find?, hb] using ih

/-- Replacing every stored digest leaves the safe-select filter unchanged. -/
lemma filter_safe_map_rehash (l : List User) (clinicId : String)
    (rehash : User → BHash) :
    ((l.map (fun u => { u with passwordHash := rehash u })).filter
        (fun u => u.clinicId == clinicId)).map toSafeUser
      = (l.filter (fun u => u.clinicId == clinicId)).map toSafeUser := by
  induction l with
  | nil => rfl
  | cons u rest ih =>
    cases hb : (u.clinicId == clinicId) with
    | true => simpa [List.filter, hb, toSafeUser] using ih
    | false => simpa [List.filter, hb] using ih

/-- Claim C9: `UsersService.getUserById` and `listClinicUsers` select only
the safe field set (the `SafeUser` structure is exactly `{id, email,
fullName, role, clinicId, isActive, invitedAt, invitationId, createdAt,
updatedAt}`): their outputs are invariant under arbitrarily rewriting
every stored `passwordHash`, so the stored digest is never exposed through
these reads. -/
theorem usersService_omits_passwordHash (s : Store) (id clinicId : String)
    (rehash : User → BHash) :
    usersGetUserById (rehashAllUsers rehash s) id = usersGetUserById s id ∧
    usersListClinicUsers (rehashAllUsers rehash s) clinicId
      = usersListClinicUsers s clinicId ∧
    (∀ (u : User) (h : BHash),
      toSafeUser { u with passwordHash := h } = toSafeUser u) := by
  refine ⟨?_, ?_, fun u h => rfl⟩
  · exact find?_safe_map_rehash s.users id rehash
  · exact filter_safe_map_rehash s.users clinicId rehash

/-- Claim C10: the only restriction `InviteStaffDto` places on `role` is
membership in the `UserRole` enum — `@IsEnum(UserRole)` accepts "OWNER"
(and every member), and nothing in `inviteStaff` or `acceptInvitation`
excludes OWNER: inviting "staff@x.com" as OWNER into clinic c1 (which
already has an OWNER) succeeds, and accepting the invitation leaves TWO
users with role OWNER in clinic c1. -/
theorem inviteStaff_allows_second_owner :
    isEnumUserRole "OWNER" = true ∧
    parseUserRole "OWNER" = some .OWNER ∧
    userRoleMembers.all (fun r => isEnumUserRole r.toName) = true ∧
    (inviteStaff cfgD demoStore "c1" "u1"
        { email := "staff@x.com", role := .OWNER } 0 "i1"
        (List.replicate 48 0) true).2
      = .ok { invitationId := "i1"
              token := generateInviteToken (List.replicate 48 0)
              expiresAt := addHoursMs 0 72 } ∧
    (acceptInvitation cfgD
        (inviteStaff cfgD demoStore "c1" "u1"
          { email := "staff@x.com", role := .OWNER } 0 "i1"
          (List.replicate 48 0) true).1
        { token := generateInviteToken (List.replicate 48 0)
          fullName := "Second Owner", password := "password2" }
        100 "u2" true true).2.isOk = true ∧
    ((acceptInvitation cfgD
        (inviteStaff cfgD demoStore "c1" "u1"
          { email := "staff@x.com", role := .OWNER } 0 "i1"
          (List.replicate 48 0) true).1
        { token := generateInviteToken (List.replicate 48 0)
          fullName := "Second Owner", password := "password2" }
        100 "u2" true true).1.users.filter
      (fun u => u.clinicId == "c1" && u.role == UserRole.OWNER)).length
      = 2 := by
  refine ⟨rfl, rfl, rfl, by decide, by decide, by decide⟩

end ClinicAuth
